import Mathlib

/-!
Shallow embedding of the treasury-update ingestion pipeline
(src/listenNewBlocks.py) and proofs of the specification's claims about it.

Conventions of the embedding:
* Python strings are Lean `String`s; the few Python string operations the
  source uses (slicing, startswith, len) are modelled over `String.data`
  (the underlying `List Char`) so that the kernel can evaluate them.
* Python big integers are `Int` / `Nat` (arbitrary precision, as in Python).
* Byte-like RPC values (`HexBytes`) appear in the source only through their
  `.hex()` rendering, so they are modelled by that rendering (a `String`).
* A Python expression that may raise is modelled with `Option`/`Except`:
  `none`/`.error` is an exception escaping that expression.
* `Web3.to_checksum_address` is kept abstract: every definition takes a
  `checksum : String → String` parameter, because no claim depends on the
  EIP-55 mixed-case rule, only on the same formatting being applied to both
  the treasury list and the decoded addresses.
-/

namespace TreasuryUpdate

/-! ### Python string / int helpers -/

/-- A hexadecimal digit as accepted by Python's `int(_, 16)`. -/
def isHexDigitChar (c : Char) : Bool :=
  ('0' ≤ c && c ≤ '9') || ('a' ≤ c && c ≤ 'f') || ('A' ≤ c && c ≤ 'F')

/-- Numeric value of a hexadecimal digit. -/
def hexDigitVal (c : Char) : Nat :=
  if '0' ≤ c && c ≤ '9' then c.toNat - '0'.toNat
  else if 'a' ≤ c && c ≤ 'f' then c.toNat - 'a'.toNat + 10
  else if 'A' ≤ c && c ≤ 'F' then c.toNat - 'A'.toNat + 10
  else 0

/-- Value of a list of hexadecimal digits, most significant first. -/
def hexVal (l : List Char) : Nat :=
  l.foldl (fun a c => 16 * a + hexDigitVal c) 0

/-- Python `int(s, 16)` on the strings this pipeline feeds it (no whitespace
or underscores occur in a `.hex()` rendering): an optional sign, an optional
`0x`/`0X` prefix, then at least one hexadecimal digit; anything else raises
`ValueError` (`none`). -/
def pyIntHex (s : String) : Option Int :=
  let cs := s.data
  let neg : Bool := cs.head? = some '-'
  let afterSign : List Char :=
    if cs.head? = some '-' ∨ cs.head? = some '+' then cs.tail else cs
  let digits : List Char :=
    if afterSign.take 2 = ['0', 'x'] ∨ afterSign.take 2 = ['0', 'X'] then
      afterSign.drop 2
    else afterSign
  if digits = [] then none
  else if digits.all isHexDigitChar then
    some (if neg then -(hexVal digits : Int) else (hexVal digits : Int))
  else none

/-- Python `s[-n:]`: the last `n` characters of `s`. -/
def lastN (s : String) (n : Nat) : String :=
  ⟨s.data.drop (s.data.length - n)⟩

/-- Python `s[:n]`: the first `n` characters of `s`. -/
def pyTake (s : String) (n : Nat) : String :=
  ⟨s.data.take n⟩

/-- Python `s.startswith(p)`. -/
def pyStartsWith (s p : String) : Bool :=
  s.data.take p.data.length == p.data

/-- Python `len(s)`. -/
def pyLen (s : String) : Nat :=
  s.data.length

/-! ### Configuration constants (module level of src/listenNewBlocks.py) -/

def BATCH_SIZE : Nat := 100
def CONFIRMATIONS : Nat := 1

def TRANSFER_TOPIC : String :=
  "0xddf252ad1be2c89b69c2b068fc378daa952ba7f163c4a11628f55a4df523b3ef"
def NATIVE_RON_TRANSFER_TOPIC : String :=
  "0x3d0ce9bfc3ed7d6862dbb28b2dea94561fe714a1b4d019aa8af39730d1ad7c3d"

/-- The zero-address sentinel written as `tokenAddress` of native transfers. -/
def ZERO_ADDRESS : String := "0x0000000000000000000000000000000000000000"

/-! ### safe_selector -/

/-- A Python value as `safe_selector` can receive it: a string, a bytes-like
object carrying its `.hex()` rendering, `None`, or any other (truthy,
non-string, non-bytes) object. -/
inductive PyVal where
  | pyStr (s : String)
  | pyBytes (hexRender : String)
  | pyNone
  | pyOther
deriving DecidableEq

/-- `safe_selector` (src/listenNewBlocks.py lines 33-42): convert a bytes-like
input to its hex string; return `"0x"` for a falsy or non-string value;
otherwise return the first 10 characters when the string starts with `"0x"`
and has at least 10 characters, else `"0x"`. -/
def safe_selector (input_data : PyVal) : String :=
  let asStr : Option String :=
    match input_data with
    | .pyBytes h => some h
    | .pyStr s => some s
    | .pyNone => none
    | .pyOther => none
  match asStr with
  | none => "0x"
  | some s =>
    if s = "" then "0x"
    else if pyStartsWith s "0x" && decide (10 ≤ pyLen s) then pyTake s 10
    else "0x"

/-- `"0x"` followed by exactly 8 hexadecimal characters: the shape the spec
calls "the 4-byte selector". -/
def isSelectorShape (s : String) : Bool :=
  pyStartsWith s "0x" && pyLen s == 10 && (s.data.drop 2).all isHexDigitChar

/-! ### with_retries -/

/-- Outcome of one `with_retries` call, with the attempt count and the sleeps
performed between attempts. `result = none` models the Python function
returning `None` because the loop body never ran (only possible when
`retries = 0`; every call site passes `retries = 3`). -/
structure RetryTrace (E A : Type) where
  result : Option (Except E A)
  attempts : Nat
  sleeps : List Nat

/-- The loop of `with_retries` (lines 47-54). `attempt` is the 1-based loop
variable, `left` the number of attempts still available (so the Python
condition `attempt == retries` is `left = 1`, matched as `left + 1` with
`left = 0` inside). `fn n` is the outcome of the n-th call of `fn`. -/
def withRetriesGo (fn : Nat → Except E A) (delay : Nat) :
    Nat → Nat → Nat → List Nat → RetryTrace E A
  | _, 0, att, sl => ⟨none, att, sl⟩
  | attempt, left + 1, att, sl =>
    match fn attempt with
    | .ok a => ⟨some (.ok a), att + 1, sl⟩
    | .error e =>
      if left = 0 then ⟨some (.error e), att + 1, sl⟩
      else withRetriesGo fn delay (attempt + 1) left (att + 1) (sl ++ [delay])

/-- `with_retries(fn, *args, retries, delay)` (lines 45-54): run `fn` up to
`retries` times; a success returns immediately; a failure on the last attempt
re-raises; other failures sleep `delay` and retry. -/
def with_retries (fn : Nat → Except E A) (retries delay : Nat) : RetryTrace E A :=
  withRetriesGo fn delay 1 retries 0 []

/-! ### Logs and classification (lines 122-141) -/

/-- A raw log entry as the loop reads it. Each hex-bytes field carries its
`.hex()` rendering (`topics`, `data`, `transactionHash`); `address` is the
plain string web3 delivers. -/
structure Log where
  topics : List String
  address : String
  data : String
  blockNumber : Nat
  logIndex : Nat
  transactionHash : String
deriving DecidableEq

/-- The `"type"` tag stored with a classified log. -/
inductive ItemType where
  | erc20_log
  | native_ron_log
deriving DecidableEq

/-- An entry of `docs_to_upsert`: `{"type": ..., "data": log}`. -/
structure Item where
  type : ItemType
  data : Log
deriving DecidableEq

/-- `doc_id = f"{log['transactionHash'].hex()}-{log['logIndex']}"` (line 123). -/
def docId (log : Log) : String :=
  log.transactionHash ++ "-" ++ toString log.logIndex

/-- Insertion into a Python dict modelled as an insertion-ordered association
list: an existing key keeps its position and gets the new value, a new key is
appended. -/
def dictInsert (d : List (String × Item)) (k : String) (v : Item) :
    List (String × Item) :=
  if d.any (fun p => p.1 = k) then
    d.map (fun p => if p.1 = k then (k, v) else p)
  else d ++ [(k, v)]

/-- Classification of one log (lines 122-137). `topics[i]` on a missing index
is an `IndexError` escaping the batch (`.error ()`): the topic accesses are
outside any `try`. `.ok none` is a discarded log, `.ok (some (key, item))` an
entry stored into `docs_to_upsert`. -/
def classifyLog (checksum : String → String) (treasury : List String)
    (log : Log) : Except Unit (Option (String × Item)) :=
  match log.topics.get? 0 with
  | none => .error ()
  | some topic0 =>
    if topic0 = TRANSFER_TOPIC then
      match log.topics.get? 1, log.topics.get? 2 with
      | some t1, some t2 =>
        let frm := checksum ("0x" ++ lastN t1 40)
        let toA := checksum ("0x" ++ lastN t2 40)
        if (frm ∈ treasury ∨ toA ∈ treasury) ∧ ¬(frm ∈ treasury ∧ toA ∈ treasury)
        then .ok (some (docId log, ⟨.erc20_log, log⟩))
        else .ok none
      | _, _ => .error ()
    else if topic0 = NATIVE_RON_TRANSFER_TOPIC then
      if checksum log.address ∈ treasury then
        .ok (some (docId log, ⟨.native_ron_log, log⟩))
      else .ok none
    else .ok none

/-- The `for log in logs` classification loop, accumulating `docs_to_upsert`
in insertion order. -/
def classifyLogs (checksum : String → String) (treasury : List String) :
    List Log → List (String × Item) → Except Unit (List (String × Item))
  | [], acc => .ok acc
  | log :: rest, acc =>
    match classifyLog checksum treasury log with
    | .error e => .error e
    | .ok none => classifyLogs checksum treasury rest acc
    | .ok (some (k, it)) => classifyLogs checksum treasury rest (dictInsert acc k it)

/-! ### Enrichment (lines 145-202) -/

/-- The transaction object: only its `input` field is read,
via `tx_details.get("input", "")` (an absent key defaults to `""`). -/
structure Tx where
  input : Option PyVal

/-- Post-retry outcomes of the two RPC lookups enrichment performs. `none`
models `with_retries` exhausting its attempts and re-raising. The chain is a
pure map: the same hash or height always answers the same way, as chain data
is immutable. -/
structure Chain where
  getTransaction : String → Option Tx
  getBlockTimestamp : Nat → Option Nat

/-- `bn in block_ts_cache` / `block_ts_cache[bn]` on the cache, an
insertion-ordered association list. -/
def cacheLookup (cache : List (Nat × Nat)) (bn : Nat) : Option Nat :=
  (cache.find? (fun p => p.1 = bn)).map Prod.snd

/-- The ledger record as `doc` is fully populated (lines 165-196). -/
structure RecordDoc where
  id : String
  tokenAddress : String
  fromAddress : String
  toAddress : String
  txHash : String
  blockNumber : Nat
  timestamp : Nat
  logIndex : Nat
  eventTopic : String
  amountRaw : String
  amount : String
  isOutgoing : Bool
  method : String
deriving DecidableEq, Inhabited

/-- `UpdateOne({"_id": doc["_id"]}, {"$set": doc}, upsert=True)` (line 197).
`doc` sets every field of the schema, so the `$set` replaces the whole record
(or inserts it when the id is absent). -/
structure Op where
  filterId : String
  doc : RecordDoc
deriving DecidableEq, Inhabited

/-- Lines 151-155: `block_ts_cache` consulted for the block number, falling
back to a `get_block` lookup whose timestamp is stored into the cache; `none`
when the lookup exhausts its retries (the cache is then unchanged). -/
def lookupOrFetchTs (chain : Chain) (cache : List (Nat × Nat)) (bn : Nat) :
    Option (Nat × List (Nat × Nat)) :=
  match cacheLookup cache bn with
  | some ts => some (ts, cache)
  | none =>
    match chain.getBlockTimestamp bn with
    | some ts => some (ts, cache ++ [(bn, ts)])
    | none => none

/-- Enrichment of one `docs_to_upsert` entry (the `try` body, lines 147-196).
Returns the op built (or `none` when an exception was raised and caught at
line 199) together with the timestamp cache, which keeps any entry added
before the failing step. The `if doc:` guard of line 182 is always taken:
both item types assign `doc`. -/
def enrichOne (checksum : String → String) (treasury : List String)
    (chain : Chain) (cache : List (Nat × Nat)) (item : Item) :
    Option Op × List (Nat × Nat) :=
  match chain.getTransaction item.data.transactionHash with
  | none => (none, cache)
  | some tx =>
    let log := item.data
    let bn := log.blockNumber
    match lookupOrFetchTs chain cache bn with
    | none => (none, cache)
    | some (ts, cache') =>
      let core : Option (String × String × String × Bool) :=
        match item.type with
        | .erc20_log =>
          match log.topics.get? 1, log.topics.get? 2 with
          | some t1, some t2 =>
            let frm := checksum ("0x" ++ lastN t1 40)
            let toA := checksum ("0x" ++ lastN t2 40)
            some (checksum log.address, frm, toA, decide (frm ∈ treasury))
          | _, _ => none
        | .native_ron_log =>
          match log.topics.get? 1 with
          | some t1 =>
            some (ZERO_ADDRESS, checksum ("0x" ++ lastN t1 40),
                  checksum log.address, false)
          | none => none
      match core, pyIntHex log.data, log.topics.get? 0 with
      | some (tok, frm, toA, is_out), some amt, some t0 =>
        (some { filterId := toString bn ++ "-" ++ toString log.logIndex,
                doc := { id := toString bn ++ "-" ++ toString log.logIndex,
                         tokenAddress := tok,
                         fromAddress := frm,
                         toAddress := toA,
                         txHash := log.transactionHash,
                         blockNumber := bn,
                         timestamp := ts,
                         logIndex := log.logIndex,
                         eventTopic := t0,
                         amountRaw := toString amt,
                         amount := toString (if is_out then -amt else amt),
                         isOutgoing := is_out,
                         method := safe_selector (tx.input.getD (.pyStr "")) } },
         cache')
      | _, _, _ => (none, cache')

/-- The `for item in docs_to_upsert.values()` loop (lines 145-202), with
CPython's live-dict iteration: the values iterator records the dict's size at
creation (`origSize`) and every `next()` call raises
`RuntimeError: dictionary changed size during iteration` (`.error ()`) when
the current size differs. On a caught per-log exception the handler inserts
the item again under the key `log["transactionHash"].hex()` (line 202) — for
well-formed inputs a key distinct from every `doc_id`, so the dict grows.
`i` is the iterator's position, `fuel = origSize + 1 - i` a structural bound
on the remaining `next()` calls; the `fuel = 0` branch is unreachable from
`runEnrichLoop` because a same-size dict yields at most `origSize + 1` calls. -/
def enrichLoopIdx (checksum : String → String) (treasury : List String)
    (chain : Chain) (origSize : Nat) :
    Nat → Nat → List (String × Item) → List (Nat × Nat) → List Op →
    Except Unit (List Op × List (String × Item) × List (Nat × Nat))
  | 0, _, _, _, _ => .error ()
  | fuel + 1, i, dict, cache, ops =>
    if dict.length ≠ origSize then .error ()
    else
      match dict.get? i with
      | none => .ok (ops, dict, cache)
      | some (_, item) =>
        match enrichOne checksum treasury chain cache item with
        | (some op, cache') =>
          enrichLoopIdx checksum treasury chain origSize
            fuel (i + 1) dict cache' (ops ++ [op])
        | (none, cache') =>
          enrichLoopIdx checksum treasury chain origSize
            fuel (i + 1)
            (dictInsert dict item.data.transactionHash item)
            cache' ops

/-- The enrichment loop over a freshly built `docs_to_upsert`, starting the
values iterator at position 0 with the dict's current size. -/
def runEnrichLoop (checksum : String → String) (treasury : List String)
    (chain : Chain) (dict : List (String × Item)) (cache : List (Nat × Nat)) :
    Except Unit (List Op × List (String × Item) × List (Nat × Nat)) :=
  enrichLoopIdx checksum treasury chain dict.length (dict.length + 1) 0 dict cache []

/-! ### One batch and one cycle (lines 99-213) -/

/-- External outcomes a single batch can observe: the post-retry result of
`get_logs` for its range (`none` = all three attempts failed, the exception
is caught at line 118 and the batch skipped), the chain used by enrichment,
and whether `collection.bulk_write` succeeds if it is attempted. -/
structure BatchEnv where
  fetchLogs : Option (List Log)
  chain : Chain
  bulkWriteOk : Bool

/-- The body of the per-batch loop (lines 105-210) acting on the in-memory
cursor `start_block` and the timestamp cache. `.error ()` is an exception
escaping the batch to the cycle-level handler of line 215 (which leaves
`start_block` as it was). On success it returns the new cursor:
`batch_end + 1` exactly when a bulk write was attempted and succeeded
(line 207), the old cursor otherwise. -/
def processBatch (checksum : String → String) (treasury : List String)
    (env : BatchEnv) (start_block : Nat) (cache : List (Nat × Nat))
    (batch_end : Nat) : Except Unit (Nat × List (Nat × Nat)) :=
  match env.fetchLogs with
  | none => .ok (start_block, cache)
  | some logs =>
    match classifyLogs checksum treasury logs [] with
    | .error e => .error e
    | .ok docs_to_upsert =>
      if docs_to_upsert.isEmpty then .ok (start_block, cache)
      else
        match runEnrichLoop checksum treasury env.chain docs_to_upsert cache with
        | .error e => .error e
        | .ok (ops, _, cache') =>
          if ops.isEmpty then .ok (start_block, cache')
          else if env.bulkWriteOk then .ok (batch_end + 1, cache')
          else .ok (start_block, cache')

/-- Python `range(start, stop, step)` for a positive step. -/
def pyRange (start stop step : Nat) : List Nat :=
  List.range' start ((stop - start + step - 1) / step) step

/-- The `(batch_start, batch_end)` pairs of one cycle:
`range(start_block, effective_end + 1, BATCH_SIZE)` with
`batch_end = min(batch_start + BATCH_SIZE - 1, effective_end)` (lines
99-102). The range is computed once at the head of the cycle and is not
affected by later `start_block` updates. -/
def batchRanges (start_block effective_end : Nat) : List (Nat × Nat) :=
  (pyRange start_block (effective_end + 1) BATCH_SIZE).map
    (fun bs => (bs, min (bs + BATCH_SIZE - 1) effective_end))

/-- One full cycle of the batch loop (lines 99-211): fold the batches in
ascending order, threading the cursor and the cache; an exception escaping a
batch aborts the rest of the cycle. `env` gives each range its external
outcomes. -/
def runCycle (checksum : String → String) (treasury : List String)
    (env : Nat × Nat → BatchEnv) (start_block effective_end : Nat)
    (cache : List (Nat × Nat)) : Except Unit (Nat × List (Nat × Nat)) :=
  (batchRanges start_block effective_end).foldlM
    (fun st r => processBatch checksum treasury (env r) st.1 st.2 r.2)
    (start_block, cache)

/-! ### The ledger store and the resume point (lines 76-81, 197, 206) -/

/-- The MongoDB collection, keyed by `_id` (the `_id` index is unique, so the
store is a partial map from id to record). -/
def Ledger : Type := String → Option RecordDoc

/-- One `UpdateOne({"_id": id}, {"$set": doc}, upsert=True)`: the record at
the id becomes `doc` (every schema field is in the `$set`), other ids are
untouched; an absent id is inserted. -/
def applyOp (L : Ledger) (op : Op) : Ledger :=
  fun k => if k = op.filterId then some op.doc else L k

/-- An unordered bulk write of the batch's ops, applied in list order (order
is irrelevant for distinct ids; for equal ids the last op wins, as any
serialization of the upserts on one key agrees up to the final state used
here). -/
def applyOps (L : Ledger) (ops : List Op) : Ledger :=
  ops.foldl applyOp L

/-- `collection.find_one(sort=[("blockNumber", -1)])` over the block numbers
stored in the ledger: a document with the maximal `blockNumber`, `none` on an
empty collection. -/
def findOneMaxBlock : List Nat → Option Nat
  | [] => none
  | b :: rest =>
    match findOneMaxBlock rest with
    | none => some b
    | some m => some (max b m)

/-- `start_block = last_doc["blockNumber"] + 1 if last_doc else head`
(lines 76-81): the resume point computed once at process start. -/
def startBlockAtBoot (storedBlocks : List Nat) (head : Nat) : Nat :=
  match findOneMaxBlock storedBlocks with
  | some b => b + 1
  | none => head

/-! ### Concrete evaluation fixtures

Small concrete inputs used by the witness theorems. `chkId` instantiates the
abstract checksum formatter with the identity (the theorems hold for every
formatter); the treasury set holds one address, as in the source. -/

def chkId : String → String := fun s => s

def addrA : String := "0xaaaaaaaaaaaaaaaaaaaaaaaaaaaaaaaaaaaaaaaa"

def treA : List String := [addrA]

/-- A 32-byte topic whose lower 20 bytes are `addrA`. -/
def topicA : String :=
  "0x000000000000000000000000aaaaaaaaaaaaaaaaaaaaaaaaaaaaaaaaaaaaaaaa"

/-- A 32-byte topic whose lower 20 bytes are a non-treasury address. -/
def topicB : String :=
  "0x000000000000000000000000bbbbbbbbbbbbbbbbbbbbbbbbbbbbbbbbbbbbbbbb"

/-- An ERC-20 transfer log from the treasury address to an outsider. -/
def erc20Log : Log :=
  { topics := [TRANSFER_TOPIC, topicA, topicB]
    address := "0xcccccccccccccccccccccccccccccccccccccccc"
    data := "0x64"
    blockNumber := 120
    logIndex := 3
    transactionHash := "0xhash01" }

/-- A native-transfer log emitted by the treasury address. -/
def nativeLog : Log :=
  { topics := [NATIVE_RON_TRANSFER_TOPIC, topicB]
    address := addrA
    data := "0x0a"
    blockNumber := 121
    logIndex := 0
    transactionHash := "0xhash02" }

/-- A chain on which every lookup succeeds. -/
def okChain : Chain :=
  { getTransaction := fun _ => some ⟨some (.pyStr "0x12345678deadbeef")⟩
    getBlockTimestamp := fun _ => some 1111 }

/-- A chain on which every transaction lookup exhausts its retries. -/
def failChain : Chain :=
  { getTransaction := fun _ => none
    getBlockTimestamp := fun _ => some 1111 }

def emptyLedger : Ledger := fun _ => none

/-- The classified map of a batch holding just `erc20Log`. -/
def okDocs : List (String × Item) :=
  match classifyLogs chkId treA [erc20Log] [] with
  | .ok d => d
  | .error _ => []

def okEnr := runEnrichLoop chkId treA okChain okDocs []

def okOps : List Op :=
  match okEnr with
  | .ok (ops, _, _) => ops
  | .error _ => []

def okDict : List (String × Item) :=
  match okEnr with
  | .ok (_, d, _) => d
  | .error _ => []

def okCache : List (Nat × Nat) :=
  match okEnr with
  | .ok (_, _, c) => c
  | .error _ => []

/-- Enrichment of the single ERC-20 item on the all-success chain. -/
def okEnrOne : Option Op × List (Nat × Nat) :=
  enrichOne chkId treA okChain [] ⟨.erc20_log, erc20Log⟩

def okOp : Op := okEnrOne.1.getD default

/-- Enrichment of the single native item on the all-success chain. -/
def natEnrOne : Option Op × List (Nat × Nat) :=
  enrichOne chkId treA okChain [] ⟨.native_ron_log, nativeLog⟩

def natOp : Op := natEnrOne.1.getD default

/-! ### Lemmas about the resume point -/

lemma findOneMaxBlock_eq_none (l : List Nat) : findOneMaxBlock l = none ↔ l = [] := by
  cases l with
  | nil => simp [findOneMaxBlock]
  | cons b rest =>
    simp only [findOneMaxBlock]
    cases findOneMaxBlock rest <;> simp

lemma findOneMaxBlock_mem (l : List Nat) (m : Nat) (h : findOneMaxBlock l = some m) :
    m ∈ l := by
  induction l generalizing m with
  | nil => simp [findOneMaxBlock] at h
  | cons b rest ih =>
    rw [findOneMaxBlock] at h
    cases hr : findOneMaxBlock rest with
    | none => rw [hr] at h; simp at h; simp [h]
    | some m' =>
      rw [hr] at h; simp at h
      rcases max_choice b m' with h1 | h1 <;> rw [h1] at h
      · simp [h]
      · exact List.mem_cons_of_mem b (h ▸ ih m' hr)

lemma findOneMaxBlock_ub (l : List Nat) (m : Nat) (h : findOneMaxBlock l = some m) :
    ∀ b ∈ l, b ≤ m := by
  induction l generalizing m with
  | nil => simp
  | cons a rest ih =>
    rw [findOneMaxBlock] at h
    cases hr : findOneMaxBlock rest with
    | none =>
      rw [hr] at h; simp at h
      have : rest = [] := (findOneMaxBlock_eq_none rest).mp hr
      subst this; simp [h]
    | some m' =>
      rw [hr] at h; simp at h
      intro b hb
      rcases List.mem_cons.mp hb with rfl | hb'
      · exact h ▸ le_max_left b m'
      · exact h ▸ le_trans (ih m' hr b hb') (le_max_right a m')

lemma findOneMaxBlock_perm (l l' : List Nat) (hp : l.Perm l') :
    findOneMaxBlock l = findOneMaxBlock l' := by
  cases hl : findOneMaxBlock l with
  | none =>
    have h0 : l = [] := (findOneMaxBlock_eq_none l).mp hl
    subst h0
    have h1 : l' = [] := hp.symm.eq_nil
    subst h1; rfl
  | some m =>
    cases hl' : findOneMaxBlock l' with
    | none =>
      have h1 : l' = [] := (findOneMaxBlock_eq_none l').mp hl'
      subst h1
      have h0 : l = [] := hp.eq_nil
      subst h0; simp [findOneMaxBlock] at hl
    | some m' =>
      have e1 : m ≤ m' :=
        findOneMaxBlock_ub l' m' hl' m (hp.mem_iff.mp (findOneMaxBlock_mem l m hl))
      have e2 : m' ≤ m :=
        findOneMaxBlock_ub l m hl m' (hp.mem_iff.mpr (findOneMaxBlock_mem l' m' hl'))
      have : m = m' := le_antisymm e1 e2
      rw [this]

/-- C6: at process start, the resume point is the maximum stored blockNumber
plus 1 on a non-empty ledger — independent of insertion order — and the
current chain head on an empty ledger. -/
theorem resume_point_correct (stored stored' : List Nat) (head : Nat)
    (hperm : stored.Perm stored') :
    startBlockAtBoot stored head = startBlockAtBoot stored' head ∧
    (stored = [] → startBlockAtBoot stored head = head) ∧
    (stored ≠ [] → ∃ m, m ∈ stored ∧ (∀ b ∈ stored, b ≤ m) ∧
        startBlockAtBoot stored head = m + 1) := by
  refine ⟨?_, ?_, ?_⟩
  · unfold startBlockAtBoot
    rw [findOneMaxBlock_perm stored stored' hperm]
  · intro h; subst h; rfl
  · intro h
    cases hl : findOneMaxBlock stored with
    | none => exact absurd ((findOneMaxBlock_eq_none stored).mp hl) h
    | some m =>
      exact ⟨m, findOneMaxBlock_mem _ _ hl, findOneMaxBlock_ub _ _ hl,
        by unfold startBlockAtBoot; rw [hl]⟩

/-- Witness for C6 at a concrete ledger: two insertion orders of the blocks
{5, 3, 9} give the same resume point, namely 10. -/
theorem resume_point_correct_witness :
    startBlockAtBoot [5, 3, 9] 100 = startBlockAtBoot [9, 5, 3] 100 ∧
    startBlockAtBoot [5, 3, 9] 100 = 10 :=
  ⟨(resume_point_correct [5, 3, 9] [9, 5, 3] 100 (by decide)).1, by decide⟩

/-! ### The method selector (C8) -/

lemma all_take (p : Char → Bool) (n : Nat) (l : List Char) (h : l.all p = true) :
    (l.take n).all p = true := by
  induction l generalizing n with
  | nil => simp
  | cons c rest ih =>
    cases n with
    | zero => simp
    | succ k =>
      simp only [List.all_cons, Bool.and_eq_true] at h
      simp only [List.take_succ_cons, List.all_cons, Bool.and_eq_true]
      exact ⟨h.1, ih k h.2⟩

/-- C8 as stated is false on a malformed input: a string that starts with
`"0x"` and has 10 or more characters is truncated to its first 10 characters
even when those are not hexadecimal, so the method field is neither the
string `"0x"` nor `"0x"` followed by 8 hex characters. -/
theorem selector_claim_counterexample :
    ¬(safe_selector (.pyStr "0xZZZZZZZZZZ") = "0x" ∨
      isSelectorShape (safe_selector (.pyStr "0xZZZZZZZZZZ")) = true) := by
  decide

/-- C8 amended, in full generality over every input: the extracted method is
the input's first 10 characters whenever the input is a string that starts
with `"0x"` and has at least 10 characters — even when those characters are
not hexadecimal — and the string `"0x"` for every other string (empty, not
`"0x"`-prefixed, or shorter than 10); a bytes-like input behaves as its hex
rendering, and absent or non-string inputs give `"0x"`, so extraction is
total and never fails the record. When additionally the input is a
well-formed hex rendering (`"0x"` followed by hex digits, the only shape an
RPC transaction input takes), the method is the 4-byte selector shape or
`"0x"`. -/
theorem safe_selector_shape (s : String) :
    (safe_selector (.pyStr s) =
      if pyStartsWith s "0x" = true ∧ 10 ≤ pyLen s then pyTake s 10
      else "0x") ∧
    safe_selector (.pyBytes s) = safe_selector (.pyStr s) ∧
    safe_selector .pyNone = "0x" ∧
    safe_selector .pyOther = "0x" ∧
    (s.data.take 2 = ['0', 'x'] → (s.data.drop 2).all isHexDigitChar = true →
      safe_selector (.pyStr s) = "0x" ∨
        isSelectorShape (safe_selector (.pyStr s)) = true) := by
  have hgen : safe_selector (.pyStr s) =
      if pyStartsWith s "0x" = true ∧ 10 ≤ pyLen s then pyTake s 10
      else "0x" := by
    by_cases h0 : s = ""
    · subst h0
      decide
    · by_cases hc : pyStartsWith s "0x" = true ∧ 10 ≤ pyLen s
      · rw [if_pos hc]
        simp [safe_selector, h0, hc.1, hc.2]
      · rw [if_neg hc]
        have hcond : (pyStartsWith s "0x" && decide (10 ≤ pyLen s)) = false := by
          cases hb : (pyStartsWith s "0x" && decide (10 ≤ pyLen s)) with
          | false => rfl
          | true =>
            rw [Bool.and_eq_true, decide_eq_true_eq] at hb
            exact absurd hb hc
        simp [safe_selector, h0, hcond]
  refine ⟨hgen, rfl, rfl, rfl, ?_⟩
  intro hx hhex
  have hstart : pyStartsWith s "0x" = true := by
    simp only [pyStartsWith, show "0x".data = ['0', 'x'] from rfl,
      show (['0', 'x'] : List Char).length = 2 from rfl, hx]
    rfl
  by_cases h10 : 10 ≤ pyLen s
  · right
    rw [hgen, if_pos ⟨hstart, h10⟩]
    have htake : (pyTake s 10).data = s.data.take 10 := rfl
    simp only [isSelectorShape, pyStartsWith, pyLen, htake,
      show "0x".data = ['0', 'x'] from rfl,
      show (['0', 'x'] : List Char).length = 2 from rfl]
    have e1 : (s.data.take 10).take 2 = s.data.take 2 := by
      rw [List.take_take]
      norm_num
    have e2 : (s.data.take 10).length = 10 := by
      rw [List.length_take]
      simp only [pyLen] at h10
      omega
    have e3 : (s.data.take 10).drop 2 = (s.data.drop 2).take 8 := by
      rw [List.drop_take]
    rw [e1, hx, e2, e3]
    simp [all_take _ _ _ hhex]
  · left
    rw [hgen, if_neg (fun hh => h10 hh.2)]

/-- Witness for the amended C8: the malformed (non-hex) 12-character input is
truncated to its first 10 characters, and a well-formed 14-character hex
input yields the selector shape. -/
theorem safe_selector_shape_witness :
    safe_selector (.pyStr "0xZZZZZZZZZZ") = pyTake "0xZZZZZZZZZZ" 10 ∧
    (safe_selector (.pyStr "0x12345678abcd") = "0x" ∨
      isSelectorShape (safe_selector (.pyStr "0x12345678abcd")) = true) :=
  ⟨by rw [(safe_selector_shape "0xZZZZZZZZZZ").1]; decide,
   (safe_selector_shape "0x12345678abcd").2.2.2.2 (by decide) (by decide)⟩

/-! ### The retry policy (C9) -/

/-- C9: every retried RPC operation runs under `with_retries(..., retries=3,
delay=5)` — `get_logs` (line 108), `get_transaction` (line 149) and
`get_block` (line 153). The trace of that policy: at most 3 attempts, one
fixed-length sleep between consecutive attempts and none after the last, an
attempt's success returned immediately with no further attempts, and the 3rd
consecutive failure propagated as the result. -/
theorem retry_policy (E A : Type) (fn : Nat → Except E A) :
    ((with_retries fn 3 5).attempts ≤ 3 ∧
      (with_retries fn 3 5).sleeps =
        List.replicate ((with_retries fn 3 5).attempts - 1) 5) ∧
    (∀ a, fn 1 = .ok a →
      with_retries fn 3 5 = ⟨some (.ok a), 1, []⟩) ∧
    (∀ e a, fn 1 = .error e → fn 2 = .ok a →
      with_retries fn 3 5 = ⟨some (.ok a), 2, [5]⟩) ∧
    (∀ e1 e2 a, fn 1 = .error e1 → fn 2 = .error e2 → fn 3 = .ok a →
      with_retries fn 3 5 = ⟨some (.ok a), 3, [5, 5]⟩) ∧
    (∀ e1 e2 e3, fn 1 = .error e1 → fn 2 = .error e2 → fn 3 = .error e3 →
      with_retries fn 3 5 = ⟨some (.error e3), 3, [5, 5]⟩) := by
  cases h1 : fn 1 with
  | error e1 =>
    cases h2 : fn 2 with
    | error e2 =>
      cases h3 : fn 3 with
      | error e3 =>
        refine ⟨?_, ?_, ?_, ?_, ?_⟩ <;>
          simp [with_retries, withRetriesGo, h1, h2, h3, List.replicate]
      | ok a3 =>
        refine ⟨?_, ?_, ?_, ?_, ?_⟩ <;>
          simp [with_retries, withRetriesGo, h1, h2, h3, List.replicate]
    | ok a2 =>
      refine ⟨?_, ?_, ?_, ?_, ?_⟩ <;>
        simp [with_retries, withRetriesGo, h1, h2, List.replicate]
  | ok a1 =>
    refine ⟨?_, ?_, ?_, ?_, ?_⟩ <;>
      simp [with_retries, withRetriesGo, h1, List.replicate]

/-! ### Inversion of a successful enrichment -/

/-- Everything a successful `enrichOne` fixes about the op it builds: the two
RPC lookups succeeded, the data payload parsed, and every field of the record
is the stated function of the log, the transaction and the treasury set. -/
lemma enrichOne_some_inv (checksum : String → String) (treasury : List String)
    (chain : Chain) (cache : List (Nat × Nat)) (item : Item) (op : Op)
    (cache' : List (Nat × Nat))
    (h : enrichOne checksum treasury chain cache item = (some op, cache')) :
    ∃ tx ts t0 amt,
      chain.getTransaction item.data.transactionHash = some tx ∧
      lookupOrFetchTs chain cache item.data.blockNumber = some (ts, cache') ∧
      item.data.topics.get? 0 = some t0 ∧
      pyIntHex item.data.data = some amt ∧
      op.filterId = toString item.data.blockNumber ++ "-" ++ toString item.data.logIndex ∧
      op.doc.id = op.filterId ∧
      op.doc.txHash = item.data.transactionHash ∧
      op.doc.blockNumber = item.data.blockNumber ∧
      op.doc.timestamp = ts ∧
      op.doc.logIndex = item.data.logIndex ∧
      op.doc.eventTopic = t0 ∧
      op.doc.amountRaw = toString amt ∧
      op.doc.amount = toString (if op.doc.isOutgoing then -amt else amt) ∧
      op.doc.method = safe_selector (tx.input.getD (.pyStr "")) ∧
      (item.type = .erc20_log →
        ∃ t1 t2, item.data.topics.get? 1 = some t1 ∧
          item.data.topics.get? 2 = some t2 ∧
          op.doc.tokenAddress = checksum item.data.address ∧
          op.doc.fromAddress = checksum ("0x" ++ lastN t1 40) ∧
          op.doc.toAddress = checksum ("0x" ++ lastN t2 40) ∧
          op.doc.isOutgoing = decide (checksum ("0x" ++ lastN t1 40) ∈ treasury)) ∧
      (item.type = .native_ron_log →
        ∃ t1, item.data.topics.get? 1 = some t1 ∧
          op.doc.tokenAddress = ZERO_ADDRESS ∧
          op.doc.fromAddress = checksum ("0x" ++ lastN t1 40) ∧
          op.doc.toAddress = checksum item.data.address ∧
          op.doc.isOutgoing = false) := by
  rw [enrichOne] at h
  dsimp only at h
  rcases hT : chain.getTransaction item.data.transactionHash with _ | tx <;>
    rw [hT] at h <;> dsimp only at h
  · exact absurd h (by simp)
  rcases hC : lookupOrFetchTs chain cache item.data.blockNumber with _ | ⟨ts, cache2⟩ <;>
    rw [hC] at h <;> dsimp only at h
  · exact absurd h (by simp)
  cases hty : item.type with
  | erc20_log =>
    rw [hty] at h
    dsimp only at h
    rcases h1 : item.data.topics.get? 1 with _ | t1 <;>
      rcases h2 : item.data.topics.get? 2 with _ | t2 <;>
        rcases ha : pyIntHex item.data.data with _ | amt <;>
          rcases h0 : item.data.topics.get? 0 with _ | t0 <;>
            rw [h1, h2, ha, h0] at h <;> dsimp only at h
    all_goals try exact Option.noConfusion (congrArg Prod.fst h)
    rw [Prod.mk.injEq] at h
    obtain ⟨hop, hcache⟩ := h
    rw [Option.some.injEq] at hop
    subst hcache
    refine ⟨tx, ts, t0, amt, rfl, rfl, rfl, rfl, ?_⟩
    subst hop
    refine ⟨rfl, rfl, rfl, rfl, rfl, rfl, rfl, rfl, rfl, rfl, ?_, ?_⟩
    · intro _; exact ⟨t1, t2, rfl, rfl, rfl, rfl, rfl, rfl⟩
    · intro hcontra; exact absurd hcontra (by simp)
  | native_ron_log =>
    rw [hty] at h
    dsimp only at h
    rcases h1 : item.data.topics.get? 1 with _ | t1 <;>
      rcases ha : pyIntHex item.data.data with _ | amt <;>
        rcases h0 : item.data.topics.get? 0 with _ | t0 <;>
          rw [h1, ha, h0] at h <;> dsimp only at h
    all_goals try exact Option.noConfusion (congrArg Prod.fst h)
    rw [Prod.mk.injEq] at h
    obtain ⟨hop, hcache⟩ := h
    rw [Option.some.injEq] at hop
    subst hcache
    refine ⟨tx, ts, t0, amt, rfl, rfl, rfl, rfl, ?_⟩
    subst hop
    refine ⟨rfl, rfl, rfl, rfl, rfl, rfl, rfl, rfl, rfl, rfl, ?_, ?_⟩
    · intro hcontra; exact absurd hcontra (by simp)
    · intro _; exact ⟨t1, rfl, rfl, rfl, rfl, rfl⟩

/-! ### ERC-20 classification and direction (C4) -/

/-- C4: for a log whose first topic is the ERC-20 transfer signature (and
which carries the two address topics the signature implies), an entry is
produced iff exactly one of the decoded from/to addresses is in the treasury
set — both-treasury and neither-treasury transfers produce nothing — and the
enriched record has `isOutgoing = true` iff the from address is in the
treasury set. -/
theorem erc20_classification (checksum : String → String) (treasury : List String)
    (log : Log) (t1 t2 : String) (rest : List String)
    (htopics : log.topics = TRANSFER_TOPIC :: t1 :: t2 :: rest) :
    (classifyLog checksum treasury log =
        .ok (some (docId log, ⟨.erc20_log, log⟩)) ↔
      ((checksum ("0x" ++ lastN t1 40) ∈ treasury ∨
          checksum ("0x" ++ lastN t2 40) ∈ treasury) ∧
        ¬(checksum ("0x" ++ lastN t1 40) ∈ treasury ∧
          checksum ("0x" ++ lastN t2 40) ∈ treasury))) ∧
    (classifyLog checksum treasury log = .ok none ↔
      ¬((checksum ("0x" ++ lastN t1 40) ∈ treasury ∨
          checksum ("0x" ++ lastN t2 40) ∈ treasury) ∧
        ¬(checksum ("0x" ++ lastN t1 40) ∈ treasury ∧
          checksum ("0x" ++ lastN t2 40) ∈ treasury))) ∧
    (∀ (chain : Chain) (cache : List (Nat × Nat)) (op : Op)
        (cache' : List (Nat × Nat)),
      enrichOne checksum treasury chain cache ⟨.erc20_log, log⟩ =
        (some op, cache') →
      (op.doc.isOutgoing = true ↔ checksum ("0x" ++ lastN t1 40) ∈ treasury)) := by
  refine ⟨?_, ?_, ?_⟩
  · by_cases hX : ((checksum ("0x" ++ lastN t1 40) ∈ treasury ∨
        checksum ("0x" ++ lastN t2 40) ∈ treasury) ∧
      ¬(checksum ("0x" ++ lastN t1 40) ∈ treasury ∧
        checksum ("0x" ++ lastN t2 40) ∈ treasury)) <;>
      simp [classifyLog, htopics, hX]
  · by_cases hX : ((checksum ("0x" ++ lastN t1 40) ∈ treasury ∨
        checksum ("0x" ++ lastN t2 40) ∈ treasury) ∧
      ¬(checksum ("0x" ++ lastN t1 40) ∈ treasury ∧
        checksum ("0x" ++ lastN t2 40) ∈ treasury)) <;>
      simp [classifyLog, htopics, hX]
  · intro chain cache op cache' h
    obtain ⟨tx, ts, t0, amt, hA1, hA2, hA3, hA4, hA5, hA6, hA7, hA8, hA9, hA10,
      hA11, hA12, hA13, hA14, herc, hnat⟩ :=
      enrichOne_some_inv checksum treasury chain cache ⟨.erc20_log, log⟩ op cache' h
    obtain ⟨t1', t2', ht1, ht2, hf1, hf2, hf3, hout⟩ := herc rfl
    have ht1' : t1' = t1 := by
      rw [show (⟨ItemType.erc20_log, log⟩ : Item).data.topics = log.topics from rfl,
        htopics] at ht1
      simpa using ht1.symm
    subst ht1'
    rw [hout]
    simp

/-- Witness for C4: the concrete treasury-to-outsider transfer log is
classified as an ERC-20 entry. -/
theorem erc20_classification_witness :
    classifyLog chkId treA erc20Log =
      .ok (some (docId erc20Log, ⟨.erc20_log, erc20Log⟩)) :=
  (erc20_classification chkId treA erc20Log topicA topicB [] rfl).1.mpr (by decide)

/-! ### Native transfer classification (C7) -/

/-- C7: for a log whose first topic is the native-asset transfer signature,
an entry is produced iff the emitting contract address is in the treasury
set, and the enriched record always has the zero-address sentinel as
`tokenAddress` and `isOutgoing = false`. -/
theorem native_classification (checksum : String → String) (treasury : List String)
    (log : Log) (rest : List String)
    (htopics : log.topics = NATIVE_RON_TRANSFER_TOPIC :: rest) :
    (classifyLog checksum treasury log =
        .ok (some (docId log, ⟨.native_ron_log, log⟩)) ↔
      checksum log.address ∈ treasury) ∧
    (classifyLog checksum treasury log = .ok none ↔
      checksum log.address ∉ treasury) ∧
    (∀ (chain : Chain) (cache : List (Nat × Nat)) (op : Op)
        (cache' : List (Nat × Nat)),
      enrichOne checksum treasury chain cache ⟨.native_ron_log, log⟩ =
        (some op, cache') →
      op.doc.tokenAddress = ZERO_ADDRESS ∧ op.doc.isOutgoing = false) := by
  have hne : NATIVE_RON_TRANSFER_TOPIC ≠ TRANSFER_TOPIC := by decide
  refine ⟨?_, ?_, ?_⟩
  · by_cases hA : checksum log.address ∈ treasury <;>
      simp [classifyLog, htopics, hne, hA]
  · by_cases hA : checksum log.address ∈ treasury <;>
      simp [classifyLog, htopics, hne, hA]
  · intro chain cache op cache' h
    obtain ⟨tx, ts, t0, amt, hA1, hA2, hA3, hA4, hA5, hA6, hA7, hA8, hA9, hA10,
      hA11, hA12, hA13, hA14, herc, hnat⟩ :=
      enrichOne_some_inv checksum treasury chain cache ⟨.native_ron_log, log⟩ op cache' h
    obtain ⟨t1', ht1, hz, hf, ht, hout⟩ := hnat rfl
    exact ⟨hz, hout⟩

/-- Witness for C7: the concrete native log emitted by the treasury address
is classified, and its enriched record carries the zero-address sentinel and
`isOutgoing = false`. -/
theorem native_classification_witness :
    classifyLog chkId treA nativeLog =
      .ok (some (docId nativeLog, ⟨.native_ron_log, nativeLog⟩)) ∧
    natOp.doc.tokenAddress = ZERO_ADDRESS ∧ natOp.doc.isOutgoing = false :=
  ⟨(native_classification chkId treA nativeLog [topicB] rfl).1.mpr (by decide),
   (native_classification chkId treA nativeLog [topicB] rfl).2.2
     okChain [] natOp natEnrOne.2 rfl⟩

/-! ### Amount sign and magnitude (C5) -/

lemma pyIntHex_nonneg (s : String) (v : Int)
    (hx : s.data.take 2 = ['0', 'x']) (h : pyIntHex s = some v) : 0 ≤ v := by
  have hhead : s.data.head? = some '0' := by
    cases hd : s.data with
    | nil => rw [hd] at hx; simp at hx
    | cons c t =>
      rw [hd] at hx
      simp only [List.take_succ_cons, List.cons.injEq] at hx
      simp [hx.1]
  rw [pyIntHex] at h
  simp only [hhead, hx, Option.some.injEq,
    (show ¬(('0' : Char) = '-') from by decide),
    (show ¬(('0' : Char) = '+') from by decide), or_self, if_false, false_or,
    decide_eq_true_eq, if_true, eq_self_iff_true, true_or, if_pos] at h
  split at h
  · exact absurd h (by simp)
  split at h
  · rw [Option.some.injEq] at h
    subst h
    exact Int.natCast_nonneg _
  · exact absurd h (by simp)

/-- C5: every produced record's `amountRaw` is the decimal rendering of the
non-negative integer parsed from the log's (well-formed hex) data payload,
and `amount` is the decimal rendering of its negation exactly when
`isOutgoing` is true. -/
theorem amount_sign_correct (checksum : String → String) (treasury : List String)
    (chain : Chain) (cache : List (Nat × Nat)) (item : Item) (op : Op)
    (cache' : List (Nat × Nat))
    (hdata : item.data.data.data.take 2 = ['0', 'x'])
    (h : enrichOne checksum treasury chain cache item = (some op, cache')) :
    ∃ v : Int, pyIntHex item.data.data = some v ∧ 0 ≤ v ∧
      op.doc.amountRaw = toString v ∧
      op.doc.amount = toString (if op.doc.isOutgoing then -v else v) := by
  obtain ⟨tx, ts, t0, amt, hA1, hA2, hA3, hA4, hA5, hA6, hA7, hA8, hA9, hA10,
    hA11, hA12, hA13, hA14, herc, hnat⟩ :=
    enrichOne_some_inv checksum treasury chain cache item op cache' h
  exact ⟨amt, hA4, pyIntHex_nonneg _ _ hdata hA4, hA12, hA13⟩

/-- Witness for C5: the concrete ERC-20 record has `amountRaw = "100"` parsed
from data `"0x64"`, and a negated `amount` because the transfer is
outgoing. -/
theorem amount_sign_witness :
    ∃ v : Int, pyIntHex erc20Log.data = some v ∧ 0 ≤ v ∧
      okOp.doc.amountRaw = toString v ∧
      okOp.doc.amount = toString (if okOp.doc.isOutgoing then -v else v) :=
  amount_sign_correct chkId treA okChain [] ⟨.erc20_log, erc20Log⟩ okOp
    okEnrOne.2 (by decide) rfl

/-! ### Idempotent upserts (C1) -/

/-- The op whose upsert determines key `k` after the batch's bulk write: the
last op of the list writing to `k`. -/
def lastWrite (ops : List Op) (k : String) : Option Op :=
  List.find? (fun op => op.filterId == k) ops.reverse

lemma applyOps_eval (L : Ledger) (ops : List Op) (k : String) :
    applyOps L ops k =
      match lastWrite ops k with
      | some op => some op.doc
      | none => L k := by
  induction ops generalizing L with
  | nil => rfl
  | cons op rest ih =>
    show applyOps (applyOp L op) rest k = _
    rw [ih]
    unfold lastWrite
    rw [List.reverse_cons, List.find?_append]
    cases hr : List.find? (fun op => op.filterId == k) rest.reverse with
    | some o => simp [hr, Option.or]
    | none =>
      simp only [hr, Option.none_or]
      by_cases hq : op.filterId = k
      · rw [List.find?_cons_of_pos _ (by simp [hq])]
        simp [applyOp, hq]
      · rw [List.find?_cons_of_neg _ (by simp [hq])]
        simp only [applyOp]
        rw [if_neg (show ¬(k = op.filterId) from fun hk => hq hk.symm)]
        rfl

/-- Re-applying a batch's upserts to a ledger that already received them
changes nothing. -/
lemma applyOps_idem (L : Ledger) (ops : List Op) :
    applyOps (applyOps L ops) ops = applyOps L ops := by
  funext k
  rw [applyOps_eval, applyOps_eval]
  cases h : lastWrite ops k <;> simp [h]

/-- Every op a successful enrichment loop emits comes from a successful
`enrichOne`. -/
lemma enrichLoopIdx_ops_spec (checksum : String → String) (treasury : List String)
    (chain : Chain) (origSize : Nat) :
    ∀ (fuel i : Nat) (dict : List (String × Item)) (cache : List (Nat × Nat))
      (ops0 ops' : List Op) (dict' : List (String × Item))
      (cache' : List (Nat × Nat)),
      enrichLoopIdx checksum treasury chain origSize fuel i dict cache ops0 =
        .ok (ops', dict', cache') →
      ∀ op ∈ ops', op ∈ ops0 ∨
        ∃ (item : Item) (c1 c2 : List (Nat × Nat)),
          enrichOne checksum treasury chain c1 item = (some op, c2) := by
  intro fuel
  induction fuel with
  | zero =>
    intro i dict cache ops0 ops' dict' cache' h
    rw [enrichLoopIdx] at h
    exact absurd h (by simp)
  | succ f ih =>
    intro i dict cache ops0 ops' dict' cache' h
    rw [enrichLoopIdx] at h
    split at h
    · exact absurd h (by simp)
    rcases hg : dict.get? i with _ | ⟨k, item⟩ <;> rw [hg] at h <;> dsimp only at h
    · rw [Except.ok.injEq, Prod.mk.injEq, Prod.mk.injEq] at h
      intro op hop
      exact Or.inl (h.1 ▸ hop)
    rcases he : enrichOne checksum treasury chain cache item with ⟨_ | op2, c2⟩ <;>
      rw [he] at h <;> dsimp only at h
    · exact ih (i + 1) _ c2 ops0 ops' dict' cache' h
    · intro op hop
      rcases ih (i + 1) dict c2 (ops0 ++ [op2]) ops' dict' cache' h op hop with
        hmem | hex
      · rcases List.mem_append.mp hmem with h1 | h1
        · exact Or.inl h1
        · have : op = op2 := by simpa using h1
          exact Or.inr ⟨item, cache, c2, this ▸ he⟩
      · exact Or.inr hex

/-- C1: the records of a batch are written with insert-or-replace semantics
keyed by `"{blockNumber}-{logIndex}"`; re-applying the same batch's upserts
leaves every record of the ledger unchanged — no duplicate key appears and no
field drifts. -/
theorem ingestion_idempotent (checksum : String → String) (treasury : List String)
    (chain : Chain) (dict : List (String × Item)) (cache : List (Nat × Nat))
    (ops : List Op) (dict' : List (String × Item)) (cache' : List (Nat × Nat))
    (h : runEnrichLoop checksum treasury chain dict cache = .ok (ops, dict', cache')) :
    (∀ L : Ledger, applyOps (applyOps L ops) ops = applyOps L ops) ∧
    (∀ op ∈ ops, op.filterId = op.doc.id ∧
      op.filterId = toString op.doc.blockNumber ++ "-" ++ toString op.doc.logIndex) := by
  refine ⟨fun L => applyOps_idem L ops, ?_⟩
  intro op hop
  rcases enrichLoopIdx_ops_spec checksum treasury chain dict.length
      (dict.length + 1) 0 dict cache [] ops dict' cache' h op hop with
    h0 | ⟨item, c1, c2, he⟩
  · exact absurd h0 (List.not_mem_nil op)
  · obtain ⟨tx, ts, t0, amt, hA1, hA2, hA3, hA4, hA5, hA6, hA7, hA8, hA9, hA10,
      hA11, hA12, hA13, hA14, _, _⟩ :=
      enrichOne_some_inv checksum treasury chain c1 item op c2 he
    exact ⟨hA6.symm, by rw [hA5, hA8, hA10]⟩

/-- Witness for C1: re-applying the concrete batch's ops to a ledger that
already holds them is a no-op. -/
theorem ingestion_idempotent_witness :
    applyOps (applyOps emptyLedger okOps) okOps = applyOps emptyLedger okOps :=
  (ingestion_idempotent chkId treA okChain okDocs [] okOps okDict okCache rfl).1
    emptyLedger

/-! ### Cursor advancement (C2) -/

/-- C2: a batch with a non-empty classified map whose enrichment built ops
advances the cursor to `batch_end + 1` exactly when the bulk write succeeds,
and leaves it at its pre-batch value when the bulk write fails. -/
theorem cursor_advance_on_write (checksum : String → String)
    (treasury : List String) (env : BatchEnv) (st be : Nat)
    (cache cacheE : List (Nat × Nat)) (logs : List Log)
    (docs dictE : List (String × Item)) (ops : List Op)
    (hfetch : env.fetchLogs = some logs)
    (hclass : classifyLogs checksum treasury logs [] = .ok docs)
    (hne : docs ≠ [])
    (henr : runEnrichLoop checksum treasury env.chain docs cache =
      .ok (ops, dictE, cacheE))
    (hops : ops ≠ []) :
    processBatch checksum treasury env st cache be =
      .ok (if env.bulkWriteOk then be + 1 else st, cacheE) := by
  have hine : docs.isEmpty = false := by
    cases docs with
    | nil => exact absurd rfl hne
    | cons a l => rfl
  have hopse : ops.isEmpty = false := by
    cases ops with
    | nil => exact absurd rfl hops
    | cons a l => rfl
  rw [processBatch, hfetch]
  simp only [hclass, hine, henr, hopse, Bool.false_eq_true, if_false]
  cases hbw : env.bulkWriteOk <;> simp [hbw]

/-- The external outcomes of the all-success concrete batch. -/
def okBatchEnv : BatchEnv :=
  { fetchLogs := some [erc20Log], chain := okChain, bulkWriteOk := true }

/-- Witness for C2: the concrete batch over blocks 100-199 advances the
cursor to 200 because its bulk write succeeds. -/
theorem cursor_advance_on_write_witness :
    processBatch chkId treA okBatchEnv 100 [] 199 = .ok (200, okCache) := by
  have h := cursor_advance_on_write chkId treA okBatchEnv 100 199 [] okCache
    [erc20Log] okDocs okDict okOps rfl rfl (by decide) rfl (by decide)
  simpa using h

/-! ### The per-log failure requeue bug (C3) -/

/-- C3 on the code as written: a per-log enrichment failure is caught (line
199) and the log re-inserted into `docs_to_upsert` under the key
`log["transactionHash"].hex()` — a key different from its `doc_id`
`"{txHash}-{logIndex}"`, so the dict grows while its `.values()` view is
being iterated, and the very next iterator step raises
`RuntimeError: dictionary changed size during iteration`. The error escapes
the per-log handler, aborts the whole batch before any bulk write, and
surfaces at the cycle-level handler of line 215. This theorem evaluates the
code at the failing input: a one-log batch whose `get_transaction` exhausts
its retries. -/
theorem per_log_failure_aborts_batch :
    enrichOne chkId treA failChain [] ⟨.erc20_log, erc20Log⟩ = (none, []) ∧
    runEnrichLoop chkId treA failChain
      [(docId erc20Log, ⟨.erc20_log, erc20Log⟩)] [] = .error () ∧
    processBatch chkId treA
      { fetchLogs := some [erc20Log], chain := failChain, bulkWriteOk := true }
      100 [] 199 = .error () :=
  ⟨rfl, rfl, rfl⟩

/-! ### Batches without writes and the cycle (C10) -/

/-- A batch's cursor outcome is binary: unchanged, or `batch_end + 1` after a
successful bulk write. -/
lemma processBatch_cursor_cases (checksum : String → String)
    (treasury : List String) (env : BatchEnv) (st : Nat)
    (cache : List (Nat × Nat)) (be st2 : Nat) (cache2 : List (Nat × Nat))
    (h : processBatch checksum treasury env st cache be = .ok (st2, cache2)) :
    st2 = st ∨ (st2 = be + 1 ∧ env.bulkWriteOk = true) := by
  rw [processBatch] at h
  rcases hf : env.fetchLogs with _ | logs <;> rw [hf] at h <;> dsimp only at h
  · rw [Except.ok.injEq, Prod.mk.injEq] at h
    exact Or.inl h.1.symm
  rcases hc : classifyLogs checksum treasury logs [] with e | docs <;>
    rw [hc] at h <;> dsimp only at h
  · exact absurd h (by simp)
  split at h
  · rw [Except.ok.injEq, Prod.mk.injEq] at h
    exact Or.inl h.1.symm
  rcases hr : runEnrichLoop checksum treasury env.chain docs cache with
    e | ⟨ops, d2, c2⟩ <;> rw [hr] at h <;> dsimp only at h
  · exact absurd h (by simp)
  split at h
  · rw [Except.ok.injEq, Prod.mk.injEq] at h
    exact Or.inl h.1.symm
  split at h
  · next hbw =>
    rw [Except.ok.injEq, Prod.mk.injEq] at h
    exact Or.inr ⟨h.1.symm, hbw⟩
  · rw [Except.ok.injEq, Prod.mk.injEq] at h
    exact Or.inl h.1.symm

/-- Folding a cycle's batches either leaves the cursor at its initial value
or sets it to `batch_end + 1` of some batch whose bulk write succeeded. -/
lemma runCycle_cursor (checksum : String → String) (treasury : List String)
    (envf : Nat × Nat → BatchEnv) :
    ∀ (ranges : List (Nat × Nat)) (st0 : Nat) (c0 : List (Nat × Nat))
      (stE : Nat) (cE : List (Nat × Nat)),
      ranges.foldlM
        (fun st r => processBatch checksum treasury (envf r) st.1 st.2 r.2)
        (st0, c0) = .ok (stE, cE) →
      stE = st0 ∨ ∃ r ∈ ranges, stE = r.2 + 1 ∧ (envf r).bulkWriteOk = true := by
  intro ranges
  induction ranges with
  | nil =>
    intro st0 c0 stE cE h
    simp only [List.foldlM_nil] at h
    rw [show (pure (st0, c0) : Except Unit (Nat × List (Nat × Nat))) =
      .ok (st0, c0) from rfl, Except.ok.injEq, Prod.mk.injEq] at h
    exact Or.inl h.1.symm
  | cons r rs ih =>
    intro st0 c0 stE cE h
    rw [List.foldlM_cons] at h
    rcases hb : processBatch checksum treasury (envf r) st0 c0 r.2 with
      e | ⟨st1, c1⟩ <;> rw [hb] at h
    · exact absurd h (by simp [Bind.bind, Except.bind])
    rw [show ((Except.ok (st1, c1) : Except Unit (Nat × List (Nat × Nat))) >>=
      fun st => rs.foldlM
        (fun st r => processBatch checksum treasury (envf r) st.1 st.2 r.2) st) =
      rs.foldlM
        (fun st r => processBatch checksum treasury (envf r) st.1 st.2 r.2)
        (st1, c1) from rfl] at h
    rcases ih st1 c1 stE cE h with h1 | ⟨r2, hr2, h2, h3⟩
    · rcases processBatch_cursor_cases checksum treasury (envf r) st0 c0 r.2
        st1 c1 hb with h4 | ⟨h4, h5⟩
      · exact Or.inl (h1.trans h4)
      · exact Or.inr ⟨r, List.mem_cons_self r rs, h1.trans h4, h5⟩
    · exact Or.inr ⟨r2, List.mem_cons_of_mem r hr2, h2, h3⟩

/-- C10: a batch in which no qualifying event is classified (or no op is
built) leaves the cursor where it was even though the batch itself succeeded;
across a cycle the cursor ends at its initial value unless some batch's bulk
write succeeded, in which case it ends just past that batch — so a range with
no write is fetched again next cycle unless a later batch in the same cycle
wrote successfully. -/
theorem unwritten_batch_no_advance (checksum : String → String)
    (treasury : List String) :
    (∀ (env : BatchEnv) (st : Nat) (cache : List (Nat × Nat)) (be : Nat)
        (logs : List Log),
      env.fetchLogs = some logs →
      classifyLogs checksum treasury logs [] = .ok [] →
      processBatch checksum treasury env st cache be = .ok (st, cache)) ∧
    (∀ (env : BatchEnv) (st : Nat) (cache cacheE : List (Nat × Nat)) (be : Nat)
        (logs : List Log) (docs dictE : List (String × Item)),
      env.fetchLogs = some logs →
      classifyLogs checksum treasury logs [] = .ok docs →
      docs ≠ [] →
      runEnrichLoop checksum treasury env.chain docs cache =
        .ok ([], dictE, cacheE) →
      processBatch checksum treasury env st cache be = .ok (st, cacheE)) ∧
    (∀ (envf : Nat × Nat → BatchEnv) (st0 effEnd : Nat)
        (c0 cE : List (Nat × Nat)) (stE : Nat),
      runCycle checksum treasury envf st0 effEnd c0 = .ok (stE, cE) →
      stE = st0 ∨ ∃ r ∈ batchRanges st0 effEnd,
        stE = r.2 + 1 ∧ (envf r).bulkWriteOk = true) := by
  refine ⟨?_, ?_, ?_⟩
  · intro env st cache be logs hfetch hclass
    rw [processBatch, hfetch]
    simp only [hclass]
    rfl
  · intro env st cache cacheE be logs docs dictE hfetch hclass hne henr
    have hine : docs.isEmpty = false := by
      cases docs with
      | nil => exact absurd rfl hne
      | cons a l => rfl
    rw [processBatch, hfetch]
    simp only [hclass, hine, henr, Bool.false_eq_true, if_false]
    rfl
  · intro envf st0 effEnd c0 cE stE h
    exact runCycle_cursor checksum treasury envf (batchRanges st0 effEnd)
      st0 c0 stE cE h

end TreasuryUpdate
